import Mathlib

/-!
Verification of the QueueCTL background job queue (CLI/CLIWORK).

Shallow embedding of `models.py`, `storage.py`, `worker.py` and the DLQ-retry
boundary of `cli.py`.  The SQLite `jobs` table is a list of rows in rowid
(insertion) order, the `dlq` table a list of records, and the JSON config file
an association list of key/value pairs.  Timestamps (ISO strings and epoch
floats in the source) are modelled as naturals; the numeric configuration
values are naturals as well.
-/

namespace QueueCtl

/-- Job lifecycle states, from `models.py` (`JobState`). -/
inductive JobState where
  | pending
  | processing
  | completed
  | failed
  | dead
deriving DecidableEq, Repr

/-- A job entity as constructed in `models.py` (`Job.__init__`); field names
follow the Python attributes.  `next_retry_at` / `error_message` are optional. -/
structure Job where
  id : String
  command : String
  state : JobState
  attempts : Nat
  maxRetries : Nat
  createdAt : Nat
  updatedAt : Nat
  nextRetryAt : Option Nat
  errorMessage : Option String
deriving DecidableEq, Repr

/-- One row of the SQLite `jobs` table (`storage.py` `_ensure_db`): the job
columns plus the `locked_until` column (REAL, DEFAULT 0). -/
structure Row where
  id : String
  command : String
  state : JobState
  attempts : Nat
  maxRetries : Nat
  createdAt : Nat
  updatedAt : Nat
  nextRetryAt : Option Nat
  errorMessage : Option String
  lockedUntil : Nat
deriving DecidableEq, Repr

/-- Projection of a table row back to a `Job`, as done by `get_job` /
`get_jobs_by_state` / `get_ready_jobs` (the `locked_until` column is dropped). -/
def Row.toJob (r : Row) : Job :=
  { id := r.id, command := r.command, state := r.state, attempts := r.attempts,
    maxRetries := r.maxRetries, createdAt := r.createdAt, updatedAt := r.updatedAt,
    nextRetryAt := r.nextRetryAt, errorMessage := r.errorMessage }

/-- One record of the `dlq` table: `job_data` is the serialized job snapshot. -/
structure DlqRec where
  id : String
  jobData : Job
  movedAt : Nat
  reason : String
deriving DecidableEq, Repr

/-- The JSON configuration document (`config.json`), an ordered key/value map. -/
abbrev Config : Type := List (String × Nat)

/-- Python `dict.get(key, default)` on the configuration document. -/
def cfgGet (c : Config) (k : String) (d : Nat) : Nat :=
  match c.find? (fun p => p.fst == k) with
  | some p => p.snd
  | none => d

/-- Python `config[key] = value`: update in place when the key exists,
otherwise append (dicts preserve insertion order). -/
def cfgSet (c : Config) (k : String) (v : Nat) : Config :=
  if c.any (fun p => p.fst == k) then
    c.map (fun p => if p.fst == k then (k, v) else p)
  else
    c ++ [(k, v)]

/-- The durable state owned by `JobStorage`: the `jobs` table, the `dlq`
table and the configuration document. -/
structure Store where
  jobs : List Row
  dlq : List DlqRec
  config : Config
deriving DecidableEq

/-- The default configuration written by `_ensure_config`. -/
def defaultConfig : Config :=
  [("max_retries", 3), ("backoff_base", 2), ("backoff_max_seconds", 600)]

/-- SELECT ... FROM jobs WHERE id = ? with `fetchone`. -/
def findRow (st : Store) (id : String) : Option Row :=
  st.jobs.find? (fun r => r.id == id)

/-- The id is present in the live `jobs` table. -/
def inLive (st : Store) (id : String) : Prop :=
  ∃ r ∈ st.jobs, r.id = id

/-- The id is present in the `dlq` table. -/
def inDlq (st : Store) (id : String) : Prop :=
  ∃ d ∈ st.dlq, d.id = id

instance (st : Store) (id : String) : Decidable (inLive st id) := by
  unfold inLive
  infer_instance

instance (st : Store) (id : String) : Decidable (inDlq st id) := by
  unfold inDlq
  infer_instance

/-- `JobStorage.add_job` (storage.py:73-96): sets `updated_at` to now and runs
INSERT OR REPLACE naming only the columns id, command, state, attempts,
max_retries, created_at, updated_at, error_message.  On a conflicting id the
old row is deleted and the new row appended; the omitted columns
`next_retry_at` and `locked_until` take their defaults (NULL and 0). -/
def addJob (st : Store) (job : Job) (now : Nat) : Store :=
  { st with jobs :=
      st.jobs.filter (fun r => !(r.id == job.id)) ++
        [{ id := job.id, command := job.command, state := job.state,
           attempts := job.attempts, maxRetries := job.maxRetries,
           createdAt := job.createdAt, updatedAt := now,
           nextRetryAt := none, errorMessage := job.errorMessage,
           lockedUntil := 0 }] }

/-- `JobStorage.get_job` (storage.py:98-121). -/
def getJob (st : Store) (id : String) : Option Job :=
  (findRow st id).map Row.toJob

/-- `JobStorage.update_job` (storage.py:237-268): sets `updated_at` to now and
UPDATEs the eight job columns WHERE id matches; `locked_until` is untouched;
a missing id makes the statement a no-op. -/
def updateJob (st : Store) (job : Job) (now : Nat) : Store :=
  { st with jobs := st.jobs.map (fun r =>
      if r.id == job.id then
        { r with command := job.command, state := job.state,
                 attempts := job.attempts, maxRetries := job.maxRetries,
                 createdAt := job.createdAt, updatedAt := now,
                 nextRetryAt := job.nextRetryAt, errorMessage := job.errorMessage }
      else r) }

/-- `JobStorage.delete_job` (storage.py:270-278). -/
def deleteJob (st : Store) (id : String) : Store :=
  { st with jobs := st.jobs.filter (fun r => !(r.id == id)) }

/-- `JobStorage.move_to_dlq` (storage.py:280-300): INSERT INTO dlq, then
DELETE FROM jobs, committed as one transaction.  The plain INSERT violates the
dlq primary key when the id is already archived; the exception aborts the
transaction before commit, so nothing changes (`none`). -/
def moveToDlq (st : Store) (job : Job) (reason : String) (now : Nat) : Option Store :=
  if st.dlq.any (fun d => d.id == job.id) then
    none
  else
    some { st with
      dlq := st.dlq ++ [{ id := job.id, jobData := job, movedAt := now, reason := reason }],
      jobs := st.jobs.filter (fun r => !(r.id == job.id)) }

/-- `JobStorage.get_dlq_job` (storage.py:318-331). -/
def getDlqJob (st : Store) (id : String) : Option Job :=
  (st.dlq.find? (fun d => d.id == id)).map DlqRec.jobData

/-- `JobStorage.remove_from_dlq` (storage.py:333-341). -/
def removeFromDlq (st : Store) (id : String) : Store :=
  { st with dlq := st.dlq.filter (fun d => !(d.id == id)) }

/-- `JobStorage.set_config` (storage.py:348-354): read the document, assign
the key, write it back. -/
def setConfig (st : Store) (k : String) (v : Nat) : Store :=
  { st with config := cfgSet st.config k v }

/-- `JobStorage.acquire_job_lock` (storage.py:356-385): SELECT `locked_until`
WHERE id; absent row fails; `locked_until < current_time` (strict) acquires by
setting `locked_until = current_time + duration`; otherwise fails with no
write.  Returns (success, resulting store). -/
def acquireJobLock (st : Store) (id : String) (durationSeconds : Nat) (now : Nat) :
    Bool × Store :=
  match findRow st id with
  | none => (false, st)
  | some row =>
    if row.lockedUntil < now then
      (true, { st with jobs := st.jobs.map (fun r =>
         if r.id == id then { r with lockedUntil := now + durationSeconds } else r) })
    else
      (false, st)

/-- `JobStorage.release_job_lock` (storage.py:387-395). -/
def releaseJobLock (st : Store) (id : String) : Store :=
  { st with jobs := st.jobs.map (fun r =>
      if r.id == id then { r with lockedUntil := 0 } else r) }

/-- `JobStorage.clear_expired_locks` (storage.py:397-409). -/
def clearExpiredLocks (st : Store) (now : Nat) : Store :=
  { st with jobs := st.jobs.map (fun r =>
      if r.lockedUntil < now && 0 < r.lockedUntil then { r with lockedUntil := 0 } else r) }

/-- Comparison used by the SQL `ORDER BY created_at` clauses. -/
def byCreated (a b : Row) : Prop := a.createdAt ≤ b.createdAt

instance : DecidableRel byCreated := fun a b => Nat.decLe a.createdAt b.createdAt

instance : IsTotal Row byCreated := ⟨fun a b => Nat.le_total a.createdAt b.createdAt⟩

instance : IsTrans Row byCreated := ⟨fun _ _ _ h1 h2 => Nat.le_trans h1 h2⟩

/-- `JobStorage.get_ready_jobs` (storage.py:149-209): the first query selects
pending rows ORDER BY created_at; the second selects failed rows with
`next_retry_at IS NOT NULL`, in table order (no ORDER BY).  The Python loop
then keeps a failed row when its parsed `next_retry_at` is ≤ now (an
unparsable or falsy value also passes; parsing always succeeds here). -/
def getReadyJobs (st : Store) (now : Nat) : List Row :=
  let pendingRows :=
    List.insertionSort byCreated (st.jobs.filter (fun r => r.state == JobState.pending))
  let failedRows :=
    st.jobs.filter (fun r => r.state == JobState.failed && r.nextRetryAt.isSome)
  let readyFailed := failedRows.filter (fun r =>
    match r.nextRetryAt with
    | some t => t ≤ now
    | none => true)
  pendingRows ++ readyFailed

/-- The retry delay from worker.py:115:
`delay = min(backoff_base ** (job.attempts - 1), backoff_max)`. -/
def backoffDelay (base attempts maxSeconds : Nat) : Nat :=
  min (base ^ (attempts - 1)) maxSeconds

/-- Which branch `Worker._handle_job_failure` took, with the values it used. -/
inductive FailureDecision where
  | retry (delay : Nat) (errMsg : String)
  | deadLetter (maxRetries : Nat) (errMsg : String)
deriving DecidableEq, Repr

/-- `Worker._handle_job_failure` (worker.py:106-136): reads the three config
values fresh from the store with defaults 3 / 2 / 600; if
`job.attempts < max_retries` it schedules a retry (state failed,
`next_retry_at = now + delay`) via `update_job`, else it marks the job dead
and calls `move_to_dlq`.  The store result is `none` exactly when
`move_to_dlq` raises; the decision records the branch taken. -/
def handleJobFailure (st : Store) (job : Job) (errMsg : String) (now : Nat) :
    Option Store × FailureDecision :=
  let maxRetries := cfgGet st.config "max_retries" 3
  let backoffBase := cfgGet st.config "backoff_base" 2
  let backoffMax := cfgGet st.config "backoff_max_seconds" 600
  if job.attempts < maxRetries then
    let delay := min (backoffBase ^ (job.attempts - 1)) backoffMax
    let job' := { job with state := JobState.failed, errorMessage := some errMsg,
                           nextRetryAt := some (now + delay) }
    (some (updateJob st job' now), FailureDecision.retry delay errMsg)
  else
    let job' := { job with state := JobState.dead, errorMessage := some errMsg }
    (moveToDlq st job'
       ("Max retries (" ++ toString maxRetries ++ ") exceeded. Last error: " ++ errMsg) now,
     FailureDecision.deadLetter maxRetries errMsg)

/-- The `dlq retry` command (cli.py:221-251): fetch the archived job, reset it
to pending with attempts 0 and cleared error/retry fields, `add_job` it into
the live table, then `remove_from_dlq` — two separate transactions. -/
def dlqRetry (st : Store) (jobId : String) (now : Nat) : Option Store :=
  match getDlqJob st jobId with
  | none => none
  | some job =>
    let job' := { job with state := JobState.pending, attempts := 0,
                           errorMessage := none, nextRetryAt := none }
    let st1 := addJob st job' now
    some (removeFromDlq st1 jobId)

/-- The committed state of `dlq retry` after its `add_job` transaction but
before its `remove_from_dlq` transaction. -/
def dlqRetryMidpoint (st : Store) (job : Job) (now : Nat) : Store :=
  addJob st
    { job with state := JobState.pending, attempts := 0,
               errorMessage := none, nextRetryAt := none } now

/-- Outcome of `subprocess.run` inside `Worker._execute_job`: a completed
process with an exit code, a `TimeoutExpired`, or a launch exception. -/
inductive ExecResult where
  | exited (code : Nat)
  | timedOut
  | launchError (msg : String)
deriving DecidableEq, Repr

/-- Which of the storage/process calls inside `Worker._execute_job` may raise
in a given run, together with the process outcome.  `initialUpdateFaults`
is the `update_job` persisting the Processing state (worker.py:75, before the
try block); `successUpdateFaults` the `update_job` of the Completed state;
`firstHandleFaults` / `secondHandleFaults` the first and second call of
`_handle_job_failure` on that path. -/
structure ExecEnv where
  initialUpdateFaults : Bool
  result : ExecResult
  successUpdateFaults : Bool
  firstHandleFaults : Bool
  secondHandleFaults : Bool
deriving DecidableEq, Repr

/-- Observable calls made by `Worker._execute_job`. -/
inductive ExecOp where
  | opUpdateJob
  | opRunProcess
  | opHandleFailure
  | opReleaseLock
deriving DecidableEq, Repr

/-- Trace semantics of `Worker._execute_job` (worker.py:71-104).  The
Processing-state `update_job` runs before the try block, so when it raises the
function propagates at once and the `finally` release never runs.  Inside the
try, a zero exit persists Completed (a fault there is caught by
`except Exception`, which calls `_handle_job_failure`); a nonzero exit calls
`_handle_job_failure` inside the try, so a fault in it is itself caught by
`except Exception` and handled a second time; a timeout or launch exception is
handled from the matching except clause.  The `finally` appends the
`release_job_lock` call on every path that entered the try.  Returns the call
trace and whether an exception propagates to the caller. -/
def executeJob (env : ExecEnv) : List ExecOp × Bool :=
  if env.initialUpdateFaults then
    ([ExecOp.opUpdateJob], true)
  else
    let inTry : List ExecOp × Bool :=
      match env.result with
      | ExecResult.exited code =>
        if code == 0 then
          if env.successUpdateFaults then
            ([ExecOp.opRunProcess, ExecOp.opUpdateJob, ExecOp.opHandleFailure],
             env.firstHandleFaults)
          else
            ([ExecOp.opRunProcess, ExecOp.opUpdateJob], false)
        else
          if env.firstHandleFaults then
            ([ExecOp.opRunProcess, ExecOp.opHandleFailure, ExecOp.opHandleFailure],
             env.secondHandleFaults)
          else
            ([ExecOp.opRunProcess, ExecOp.opHandleFailure], false)
      | ExecResult.timedOut =>
        ([ExecOp.opRunProcess, ExecOp.opHandleFailure], env.firstHandleFaults)
      | ExecResult.launchError _ =>
        ([ExecOp.opRunProcess, ExecOp.opHandleFailure], env.firstHandleFaults)
    (ExecOp.opUpdateJob :: inTry.fst ++ [ExecOp.opReleaseLock], inTry.snd)

/-- Abstract outcome of one iteration of the poll loop in `Worker.run`. -/
inductive CycleOutcome where
  | jobFound
  | noJob
  | storageError
deriving DecidableEq, Repr

/-- Loop semantics of `Worker.run` (worker.py:31-51): the try/except wraps the
whole while loop, so the first cycle that raises (e.g. a storage error from
`get_ready_jobs`) is caught OUTSIDE the loop, logged, and the worker stops.
Returns the number of cycles entered and whether the worker stopped because of
an exception. -/
def workerRun : List CycleOutcome → Nat × Bool
  | [] => (0, false)
  | CycleOutcome.storageError :: _ => (1, true)
  | _ :: rest =>
    let t := workerRun rest
    (t.fst + 1, t.snd)

/-- Modelled from the spec: the loop behaviour §7 prescribes — "a Worker logs
it and treats the cycle as if no job were found, retrying on the next poll" —
i.e. every cycle of the script is processed and no error stops the worker. -/
def workerRunSpec (script : List CycleOutcome) : Nat × Bool :=
  (script.length, false)

/-- Progress of one in-flight `acquire_job_lock` call, split at its two
statements: the SELECT of `locked_until` and the conditional UPDATE. -/
inductive AcqPhase where
  | ready
  | checked (sel : Option Nat)
  | finished (result : Bool)
deriving DecidableEq, Repr

/-- One step of an in-flight `acquire_job_lock` call against the store:
first the SELECT (recording what it read), then — based only on that stale
read — the UPDATE-and-return-true or the return-false. -/
def acqStep (st : Store) (id : String) (durationSeconds now : Nat) (p : AcqPhase) :
    Store × AcqPhase :=
  match p with
  | AcqPhase.ready =>
    (st, AcqPhase.checked ((findRow st id).map Row.lockedUntil))
  | AcqPhase.checked none => (st, AcqPhase.finished false)
  | AcqPhase.checked (some v) =>
    if v < now then
      ({ st with jobs := st.jobs.map (fun r =>
          if r.id == id then { r with lockedUntil := now + durationSeconds } else r) },
       AcqPhase.finished true)
    else
      (st, AcqPhase.finished false)
  | AcqPhase.finished r => (st, AcqPhase.finished r)

/-- Two workers A and B concurrently running `acquire_job_lock` on the same id
with the same duration at the same instant; the schedule says which worker
performs the next statement (`true` = A). -/
def runTwoAcquires (st : Store) (id : String) (durationSeconds now : Nat)
    (pa pb : AcqPhase) : List Bool → Store × AcqPhase × AcqPhase
  | [] => (st, pa, pb)
  | turn :: rest =>
    if turn then
      let s := acqStep st id durationSeconds now pa
      runTwoAcquires s.fst id durationSeconds now s.snd pb rest
    else
      let s := acqStep st id durationSeconds now pb
      runTwoAcquires s.fst id durationSeconds now pa s.snd rest

/-- Whether the store behind an optional result (some = committed, none =
aborted) holds the id in the live table. -/
def optInLive (r : Option Store) (id : String) : Bool :=
  match r with
  | some st => decide (inLive st id)
  | none => false

/-- Whether the store behind an optional result holds the id in the dlq. -/
def optInDlq (r : Option Store) (id : String) : Bool :=
  match r with
  | some st => decide (inDlq st id)
  | none => false

/-! Helper lemmas about row lookup under the UPDATE ... WHERE id pattern. -/

theorem find?_map_guard (l : List Row) (id : String) (f : Row → Row)
    (hf : ∀ r, (f r).id = r.id) :
    (l.map (fun r => if r.id == id then f r else r)).find? (fun r => r.id == id) =
      (l.find? (fun r => r.id == id)).map f := by
  induction l with
  | nil => rfl
  | cons a l ih =>
    by_cases ha : a.id = id
    · have h1 : (a.id == id) = true := by simp [ha]
      have h2 : ((f a).id == id) = true := by simp [hf a, ha]
      rw [List.map_cons, if_pos h1,
        List.find?_cons_of_pos (p := fun r => r.id == id) (a := f a) _ h2,
        List.find?_cons_of_pos (p := fun r => r.id == id) (a := a) _ h1]
      rfl
    · have h1 : ¬ (a.id == id) = true := by simp [ha]
      rw [List.map_cons, if_neg h1,
        List.find?_cons_of_neg (p := fun r => r.id == id) (a := a) _ h1,
        List.find?_cons_of_neg (p := fun r => r.id == id) (a := a) _ h1]
      exact ih

theorem find?_filter_ne_append (l : List Row) (idj x : String) (hx : x ≠ idj)
    (newRow : Row) (hnew : newRow.id = idj) :
    ((l.filter (fun r => !(r.id == idj))) ++ [newRow]).find? (fun r => r.id == x) =
      l.find? (fun r => r.id == x) := by
  have hnx : ¬ (newRow.id == x) = true := by
    simp [hnew]; exact fun h => hx h.symm
  induction l with
  | nil =>
    rw [List.filter_nil, List.nil_append,
      List.find?_cons_of_neg (p := fun r => r.id == x) (a := newRow) _ hnx,
      List.find?_nil]
  | cons a l ih =>
    by_cases ha : a.id = idj
    · have h1 : ¬ (!(a.id == idj)) = true := by simp [ha]
      have h2 : ¬ (a.id == x) = true := by
        simp [ha]; exact fun h => hx h.symm
      rw [List.filter_cons_of_neg (p := fun r => !(r.id == idj)) (a := a) h1,
        List.find?_cons_of_neg (p := fun r => r.id == x) (a := a) _ h2]
      exact ih
    · have h1 : (!(a.id == idj)) = true := by simp [ha]
      by_cases hax : a.id = x
      · have h2 : (a.id == x) = true := by simp [hax]
        rw [List.filter_cons_of_pos (p := fun r => !(r.id == idj)) (a := a) h1, List.cons_append,
          List.find?_cons_of_pos (p := fun r => r.id == x) (a := a) _ h2,
          List.find?_cons_of_pos (p := fun r => r.id == x) (a := a) _ h2]
      · have h2 : ¬ (a.id == x) = true := by simp [hax]
        rw [List.filter_cons_of_pos (p := fun r => !(r.id == idj)) (a := a) h1, List.cons_append,
          List.find?_cons_of_neg (p := fun r => r.id == x) (a := a) _ h2,
          List.find?_cons_of_neg (p := fun r => r.id == x) (a := a) _ h2]
        exact ih

/-! Claim C1 — the lock-acquisition contract of `acquire_job_lock`. -/

/-- A job row whose lease expires exactly at the instant of the acquire call. -/
def c1Row : Row :=
  { id := "j1", command := "echo hi", state := JobState.pending, attempts := 0,
    maxRetries := 3, createdAt := 10, updatedAt := 10, nextRetryAt := none,
    errorMessage := none, lockedUntil := 100 }

/-- A store holding only `c1Row`, with the default configuration. -/
def c1Store : Store := { jobs := [c1Row], dlq := [], config := defaultConfig }

/-- C1 (counterexample): at the boundary `lock_expiry = now` the claim's
condition "current lock_expiry ≤ now" holds for an existing id, yet
`acquire_job_lock` returns false and leaves the store untouched, because
storage.py:375 tests `locked_until < current_time` strictly.  This refutes the
claimed if-and-only-if. -/
theorem acquireLock_boundary_refuses :
    findRow c1Store "j1" = some c1Row ∧ c1Row.lockedUntil ≤ 100
    ∧ (acquireJobLock c1Store "j1" 60 100).fst = false
    ∧ (acquireJobLock c1Store "j1" 60 100).snd = c1Store := by
  decide

/-- C1 (amended): `acquire_job_lock id duration` succeeds and sets
`locked_until = now + duration` if and only if the id exists in the live table
and its current `locked_until` is strictly below now (the unlocked sentinel 0
qualifies whenever now is positive); in every other case it returns false
without any mutation of the store. -/
theorem acquireLock_strict_cas (st : Store) (id : String) (dur now : Nat) :
    ((acquireJobLock st id dur now).fst = true ↔
      ∃ r, findRow st id = some r ∧ r.lockedUntil < now)
    ∧ ((acquireJobLock st id dur now).fst = false →
        (acquireJobLock st id dur now).snd = st)
    ∧ (∀ r, findRow st id = some r → r.lockedUntil < now →
        findRow (acquireJobLock st id dur now).snd id =
          some { r with lockedUntil := now + dur }) := by
  cases h : findRow st id with
  | none =>
    refine ⟨?_, ?_, ?_⟩
    · simp only [acquireJobLock, h]
      constructor
      · intro hfalse; exact absurd hfalse (by simp)
      · rintro ⟨r, hr, _⟩; cases hr
    · intro _; simp [acquireJobLock, h]
    · intro r hr; cases hr
  | some row =>
    by_cases hlt : row.lockedUntil < now
    · refine ⟨?_, ?_, ?_⟩
      · simp only [acquireJobLock, h, hlt, if_true]
        exact ⟨fun _ => ⟨row, rfl, hlt⟩, fun _ => by simp⟩
      · intro hfalse
        simp only [acquireJobLock, h, hlt, if_true] at hfalse
        exact absurd hfalse (by simp)
      · intro r hr hrlt
        injection hr with he
        subst he
        simp only [acquireJobLock, h, hlt, if_true]
        unfold findRow
        have h' : List.find? (fun r => r.id == id) st.jobs = some row := h
        have hg := find?_map_guard st.jobs id
          (fun r => { r with lockedUntil := now + dur }) (fun _ => rfl)
        rw [h'] at hg
        exact hg
    · refine ⟨?_, ?_, ?_⟩
      · simp only [acquireJobLock, h, hlt, if_false]
        constructor
        · intro hfalse; exact absurd hfalse (by simp)
        · rintro ⟨r, hr, hrlt⟩
          injection hr with he
          subst he
          exact absurd hrlt hlt
      · intro _; simp [acquireJobLock, h, hlt]
      · intro r hr hrlt
        injection hr with he
        subst he
        exact absurd hrlt hlt

/-- C1 (witness): a row locked until 40 is acquired at time 100 for 60
seconds, and its stored `locked_until` becomes 160. -/
theorem acquireLock_strict_cas_witness :
    findRow (acquireJobLock
        { jobs := [{ c1Row with lockedUntil := 40 }], dlq := [], config := defaultConfig }
        "j1" 60 100).snd "j1" =
      some { c1Row with lockedUntil := 160 } := by
  have h := (acquireLock_strict_cas
      { jobs := [{ c1Row with lockedUntil := 40 }], dlq := [], config := defaultConfig }
      "j1" 60 100).2.2 { c1Row with lockedUntil := 40 } (by decide) (by decide)
  simpa using h

/-! Claim C2 — lock exclusivity under concurrent acquisition. -/

/-- An unlocked ready job row. -/
def c2Row : Row :=
  { id := "j2", command := "sleep 1", state := JobState.pending, attempts := 0,
    maxRetries := 3, createdAt := 10, updatedAt := 10, nextRetryAt := none,
    errorMessage := none, lockedUntil := 0 }

/-- A store holding only the unlocked `c2Row`. -/
def c2Store : Store := { jobs := [c2Row], dlq := [], config := defaultConfig }

/-- Sanity check: a worker running its two statements alone behaves exactly
like the sequential `acquire_job_lock`. -/
theorem runTwoAcquires_solo (st : Store) (id : String) (dur now : Nat) :
    runTwoAcquires st id dur now AcqPhase.ready AcqPhase.ready [true, true] =
      ((acquireJobLock st id dur now).snd,
        AcqPhase.finished (acquireJobLock st id dur now).fst, AcqPhase.ready) := by
  cases h : findRow st id with
  | none => simp [runTwoAcquires, acqStep, acquireJobLock, h]
  | some row =>
    by_cases hlt : row.lockedUntil < now <;>
      simp [runTwoAcquires, acqStep, acquireJobLock, h, hlt]

/-- Serialized runs keep exclusivity: when A's two statements complete before
B starts, only A succeeds. -/
theorem runTwoAcquires_serialized_exclusive :
    (runTwoAcquires c2Store "j2" 300 100 AcqPhase.ready AcqPhase.ready
        [true, true, false, false]).snd =
      (AcqPhase.finished true, AcqPhase.finished false) := by
  decide

/-- C2: the read-then-write lock acquisition of storage.py:356-385 is a
check-then-act race.  With both workers interleaving their SELECT of
`locked_until = 0` before either UPDATE (schedule A-read, B-read, A-write,
B-write) both calls return success, violating "at most one returns success". -/
theorem acquireLock_race_both_succeed :
    (runTwoAcquires c2Store "j2" 300 100 AcqPhase.ready AcqPhase.ready
        [true, false, true, false]).snd =
      (AcqPhase.finished true, AcqPhase.finished true) := by
  decide

/-! Shared membership lemmas. -/

theorem mem_map_id_pres (l : List Row) (g : Row → Row)
    (hg : ∀ r, (g r).id = r.id) (x : String) :
    (∃ r ∈ l.map g, r.id = x) ↔ (∃ r ∈ l, r.id = x) := by
  simp only [List.mem_map]
  constructor
  · rintro ⟨r, ⟨s, hs, rfl⟩, hx⟩
    exact ⟨s, hs, by rw [← hg s]; exact hx⟩
  · rintro ⟨s, hs, hx⟩
    exact ⟨g s, ⟨s, hs, rfl⟩, by rw [hg s]; exact hx⟩

theorem inLive_updateJob (st : Store) (job : Job) (now : Nat) (x : String) :
    inLive (updateJob st job now) x ↔ inLive st x := by
  unfold inLive updateJob
  exact mem_map_id_pres st.jobs _
    (fun r => by by_cases h : (r.id == job.id) = true <;> simp [h]) x

theorem moveToDlq_spec (st : Store) (job : Job) (reason : String) (now : Nat)
    (st' : Store) (h : moveToDlq st job reason now = some st') :
    ¬ inLive st' job.id ∧ inDlq st' job.id
    ∧ ∀ x, x ≠ job.id →
        ((inLive st' x ↔ inLive st x) ∧ (inDlq st' x ↔ inDlq st x)) := by
  unfold moveToDlq at h
  cases hd : st.dlq.any (fun d => d.id == job.id) with
  | true => rw [hd] at h; cases h
  | false =>
    rw [hd] at h
    simp only [Bool.false_eq_true, if_false, Option.some_inj] at h
    subst h
    refine ⟨?_, ?_, ?_⟩
    · rintro ⟨r, hr, hx⟩
      simp only [List.mem_filter] at hr
      rw [hx] at hr
      simp at hr
    · exact ⟨{ id := job.id, jobData := job, movedAt := now, reason := reason },
        by simp, rfl⟩
    · intro x hx
      constructor
      · unfold inLive
        simp only [List.mem_filter]
        constructor
        · rintro ⟨r, ⟨hr, _⟩, hrx⟩
          exact ⟨r, hr, hrx⟩
        · rintro ⟨r, hr, hrx⟩
          exact ⟨r, ⟨hr, by rw [hrx]; simp [hx]⟩, hrx⟩
      · unfold inDlq
        simp only [List.mem_append, List.mem_singleton]
        constructor
        · rintro ⟨d, hd', hdx⟩
          rcases hd' with hd' | hd'
          · exact ⟨d, hd', hdx⟩
          · subst hd'
            exact absurd hdx.symm hx
        · rintro ⟨d, hd', hdx⟩
          exact ⟨d, Or.inl hd', hdx⟩

/-! Claim C3 — which retry ceiling governs the Dead transition. -/

/-- A job that has just failed with `attempts = 1` and a per-job
`max_retries` of 1. -/
def c3Job : Job :=
  { id := "j3", command := "exit 1", state := JobState.processing, attempts := 1,
    maxRetries := 1, createdAt := 10, updatedAt := 20, nextRetryAt := none,
    errorMessage := none }

/-- The live-table row for `c3Job`, currently leased. -/
def c3Row : Row :=
  { id := "j3", command := "exit 1", state := JobState.processing, attempts := 1,
    maxRetries := 1, createdAt := 10, updatedAt := 20, nextRetryAt := none,
    errorMessage := none, lockedUntil := 1300 }

/-- A store holding only `c3Row`, with the default configuration
(`max_retries = 3`). -/
def c3Store : Store := { jobs := [c3Row], dlq := [], config := defaultConfig }

/-- C3 (counterexample): a job whose own `max_retries` field is 1 fails with
`attempts = 1` — it has reached its per-job ceiling — yet
`_handle_job_failure` consults only the configured `max_retries` (3,
worker.py:109) and schedules a retry: the job stays in the live table and no
dead-letter migration happens.  This refutes "transitions to Dead exactly
when attempts reaches [the job's own per-job] max_retries, never later". -/
theorem handleFailure_ignores_perjob_ceiling :
    c3Job.attempts = c3Job.maxRetries
    ∧ (handleJobFailure c3Store c3Job "boom" 1000).snd =
        FailureDecision.retry 1 "boom"
    ∧ optInLive (handleJobFailure c3Store c3Job "boom" 1000).fst "j3" = true
    ∧ optInDlq (handleJobFailure c3Store c3Job "boom" 1000).fst "j3" = false := by
  decide

/-- C3 (amended): the failure decision is governed by the process-wide
configured `max_retries` (read fresh at decision time, default 3), not by the
job's per-job field: the handler dead-letters exactly when
`attempts ≥ config max_retries` (removing the id from the live table and
archiving it), and otherwise schedules a retry with the backoff delay, the job
remaining in the live table; so `attempts` is bounded by the configured
ceiling, not the per-job one. -/
theorem handleFailure_config_ceiling (st : Store) (job : Job) (err : String)
    (now : Nat) :
    ((handleJobFailure st job err now).snd =
        FailureDecision.deadLetter (cfgGet st.config "max_retries" 3) err ↔
      cfgGet st.config "max_retries" 3 ≤ job.attempts)
    ∧ (job.attempts < cfgGet st.config "max_retries" 3 →
        (handleJobFailure st job err now).snd =
          FailureDecision.retry
            (backoffDelay (cfgGet st.config "backoff_base" 2) job.attempts
              (cfgGet st.config "backoff_max_seconds" 600)) err
        ∧ (inLive st job.id →
            optInLive (handleJobFailure st job err now).fst job.id = true))
    ∧ (cfgGet st.config "max_retries" 3 ≤ job.attempts →
        ∀ st', (handleJobFailure st job err now).fst = some st' →
          ¬ inLive st' job.id ∧ inDlq st' job.id) := by
  refine ⟨?_, ?_, ?_⟩
  · by_cases hc : job.attempts < cfgGet st.config "max_retries" 3
    · simp only [handleJobFailure, hc, if_true]
      constructor
      · intro h; cases h
      · intro hle; omega
    · simp only [handleJobFailure, hc, if_false]
      exact ⟨fun _ => by omega, fun _ => by trivial⟩
  · intro hc
    refine ⟨by simp only [handleJobFailure, hc, if_true]; trivial, ?_⟩
    intro hlive
    simp only [handleJobFailure, hc, if_true, optInLive, decide_eq_true_eq]
    exact (inLive_updateJob st _ now job.id).mpr hlive
  · intro hc st' h
    have hnc : ¬ job.attempts < cfgGet st.config "max_retries" 3 := by omega
    simp only [handleJobFailure, hnc, if_false] at h
    have hs := moveToDlq_spec st _ _ now st' h
    exact ⟨hs.1, hs.2.1⟩

/-- C3 (witness): with the default configuration, the failing job with
`attempts = 1 < 3` gets a retry verdict and stays in the live table. -/
theorem handleFailure_config_ceiling_witness :
    (handleJobFailure c3Store c3Job "boom" 1000).snd =
      FailureDecision.retry
        (backoffDelay (cfgGet c3Store.config "backoff_base" 2) c3Job.attempts
          (cfgGet c3Store.config "backoff_max_seconds" 600)) "boom"
    ∧ optInLive (handleJobFailure c3Store c3Job "boom" 1000).fst c3Job.id = true := by
  have h := (handleFailure_config_ceiling c3Store c3Job "boom" 1000).2.1 (by decide)
  exact ⟨h.1, h.2 (by decide)⟩

/-! Claim C4 — live table / dead-letter mutual exclusion. -/

/-- A dead job snapshot archived in the dlq. -/
def c4Job : Job :=
  { id := "j4", command := "exit 1", state := JobState.dead, attempts := 3,
    maxRetries := 3, createdAt := 5, updatedAt := 6, nextRetryAt := none,
    errorMessage := some "boom" }

/-- A store whose live table is empty and whose dlq holds `c4Job`. -/
def c4Store : Store :=
  { jobs := [],
    dlq := [{ id := "j4", jobData := c4Job, movedAt := 7, reason := "max retries" }],
    config := defaultConfig }

/-- C4 (counterexample): `dlq retry` (cli.py:244-245) runs `add_job` and
`remove_from_dlq` as two separate transactions.  In the committed state after
the first and before the second — `dlqRetryMidpoint` — the id is present in
BOTH the live table and the dead-letter collection, refuting "a job id exists
in at most one of the two at any instant" for the requeue boundary
operation. -/
theorem dlqRetry_transiently_in_both :
    getDlqJob c4Store "j4" = some c4Job
    ∧ inLive (dlqRetryMidpoint c4Store c4Job 8) "j4"
    ∧ inDlq (dlqRetryMidpoint c4Store c4Job 8) "j4" := by
  decide

/-- C4 (amended): `move_to_dlq` itself is one atomic unit that preserves
mutual exclusion — when it commits, the id is in the dlq and not in the live
table, and every other id's presence in either collection is unchanged — and
a completed `dlq retry` (both its transactions) restores exclusion, leaving
the id live and not archived; but between the two requeue transactions the id
is transiently in both collections. -/
theorem dlq_mutual_exclusion (st : Store) (job : Job) (reason : String)
    (now : Nat) (id : String) :
    (∀ st', moveToDlq st job reason now = some st' →
      (¬ inLive st' job.id ∧ inDlq st' job.id
        ∧ ∀ x, x ≠ job.id →
            ((inLive st' x ↔ inLive st x) ∧ (inDlq st' x ↔ inDlq st x))))
    ∧ (∀ st', dlqRetry st id now = some st' →
        (∀ d ∈ st.dlq, d.jobData.id = d.id) →
        inLive st' id ∧ ¬ inDlq st' id) := by
  constructor
  · intro st' h
    exact moveToDlq_spec st job reason now st' h
  · intro st' h hwf
    unfold dlqRetry at h
    cases hfind : getDlqJob st id with
    | none => rw [hfind] at h; cases h
    | some job0 =>
      rw [hfind] at h
      simp only [Option.some_inj] at h
      subst h
      have hid : job0.id = id := by
        unfold getDlqJob at hfind
        cases hrec : st.dlq.find? (fun d => d.id == id) with
        | none => rw [hrec] at hfind; cases hfind
        | some rec =>
          rw [hrec] at hfind
          simp only [Option.map_some', Option.some_inj] at hfind
          have hmem := List.mem_of_find?_eq_some hrec
          have hpred := List.find?_some hrec
          simp only [beq_iff_eq] at hpred
          rw [← hfind, hwf rec hmem, hpred]
      constructor
      · refine ⟨{ id := job0.id, command := job0.command, state := JobState.pending,
                  attempts := 0, maxRetries := job0.maxRetries,
                  createdAt := job0.createdAt, updatedAt := now,
                  nextRetryAt := none, errorMessage := none,
                  lockedUntil := 0 }, ?_, hid⟩
        show _ ∈ List.filter _ _ ++ [_]
        simp
      · rintro ⟨d, hd, hdx⟩
        simp only [removeFromDlq, addJob, List.mem_filter] at hd
        rw [hdx] at hd
        simp at hd

/-- C4 (witness): moving a live job to the dlq removes it from the live table
and archives it; completing a dlq retry restores the id to the live table and
clears it from the dlq. -/
theorem dlq_mutual_exclusion_witness :
    (¬ inLive ((moveToDlq { jobs := [c3Row], dlq := [], config := defaultConfig }
          c3Job "max retries" 9).getD c4Store) c3Job.id
      ∧ inDlq ((moveToDlq { jobs := [c3Row], dlq := [], config := defaultConfig }
          c3Job "max retries" 9).getD c4Store) c3Job.id)
    ∧ (inLive ((dlqRetry c4Store "j4" 8).getD c4Store) "j4"
      ∧ ¬ inDlq ((dlqRetry c4Store "j4" 8).getD c4Store) "j4") := by
  constructor
  · have h := (dlq_mutual_exclusion { jobs := [c3Row], dlq := [], config := defaultConfig }
      c3Job "max retries" 9 "j3").1
      ((moveToDlq { jobs := [c3Row], dlq := [], config := defaultConfig }
        c3Job "max retries" 9).getD c4Store) (by decide)
    exact ⟨h.1, h.2.1⟩
  · exact (dlq_mutual_exclusion c4Store c4Job "r" 8 "j4").2
      ((dlqRetry c4Store "j4" 8).getD c4Store) (by decide) (by decide)

/-! Claim C5 — properties of the backoff delay formula. -/

/-- C5: the delay `min(backoff_base ^ (attempts - 1), backoff_max_seconds)`
of worker.py:115 is non-decreasing in attempts (for any base ≥ 1, which the
shipped default 2 satisfies), bounded above by `backoff_max_seconds`, and
equals 1 at `attempts = 1` when `backoff_base = 2` (for any cap ≥ 1; the
shipped default is 600). -/
theorem backoffDelay_monotone_bounded (base maxS : Nat) (hb : 1 ≤ base)
    (hm : 1 ≤ maxS) :
    (∀ a1 a2, a1 ≤ a2 → backoffDelay base a1 maxS ≤ backoffDelay base a2 maxS)
    ∧ (∀ a, backoffDelay base a maxS ≤ maxS)
    ∧ backoffDelay 2 1 maxS = 1 := by
  refine ⟨?_, ?_, ?_⟩
  · intro a1 a2 h
    exact min_le_min (Nat.pow_le_pow_right hb (Nat.sub_le_sub_right h 1)) le_rfl
  · intro a
    exact min_le_right _ _
  · unfold backoffDelay
    simpa using Nat.min_eq_left hm

/-- C5 (witness): instances of the three properties at the shipped defaults
`backoff_base = 2`, `backoff_max_seconds = 600`. -/
theorem backoffDelay_monotone_bounded_witness :
    backoffDelay 2 3 600 ≤ backoffDelay 2 5 600
    ∧ backoffDelay 2 20 600 ≤ 600
    ∧ backoffDelay 2 1 600 = 1 := by
  have h := backoffDelay_monotone_bounded 2 600 (by decide) (by decide)
  exact ⟨h.1 3 5 (by decide), h.2.1 20, h.2.2⟩

/-! Claim C6 — contents and order of the ready set. -/

/-- A failed row whose `next_retry_at` is absent (NULL). -/
def c6Row : Row :=
  { id := "j6", command := "exit 1", state := JobState.failed, attempts := 1,
    maxRetries := 3, createdAt := 10, updatedAt := 20, nextRetryAt := none,
    errorMessage := some "boom", lockedUntil := 0 }

/-- A store holding only `c6Row`. -/
def c6Store : Store := { jobs := [c6Row], dlq := [], config := defaultConfig }

/-- C6 (counterexample): a Failed job with absent `next_retry_at` is claimed
ready by the spec ("next_retry_at is absent or ≤ now"), but the second query
of `get_ready_jobs` (storage.py:164) filters on
`next_retry_at IS NOT NULL`, so the job is not returned at all. -/
theorem getReady_excludes_absent_retry :
    c6Row ∈ c6Store.jobs ∧ c6Row.state = JobState.failed
    ∧ c6Row.nextRetryAt = none
    ∧ getReadyJobs c6Store 100 = [] := by
  decide

/-- C6 (amended): `get_ready_jobs` returns exactly the Pending jobs, sorted
ascending by `created_at`, followed by the Failed jobs whose `next_retry_at`
is present and ≤ now — Failed jobs with absent `next_retry_at` are excluded —
and the Failed subgroup keeps table (rowid) order, no ORDER BY being applied
to it; every Pending job precedes every Failed-ready job. -/
theorem getReady_characterization (st : Store) (now : Nat) :
    (∀ r, r ∈ getReadyJobs st now ↔
      (r ∈ st.jobs ∧ (r.state = JobState.pending ∨
        (r.state = JobState.failed ∧ ∃ t, r.nextRetryAt = some t ∧ t ≤ now))))
    ∧ ∃ p f, getReadyJobs st now = p ++ f
      ∧ List.Sorted byCreated p
      ∧ (∀ r ∈ p, r.state = JobState.pending)
      ∧ f = st.jobs.filter (fun r =>
          r.state == JobState.failed &&
            match r.nextRetryAt with
            | some t => decide (t ≤ now)
            | none => false) := by
  have hf : (st.jobs.filter
        (fun r => r.state == JobState.failed && r.nextRetryAt.isSome)).filter
        (fun r => match r.nextRetryAt with
          | some t => decide (t ≤ now)
          | none => true) =
      st.jobs.filter (fun r =>
        r.state == JobState.failed &&
          match r.nextRetryAt with
          | some t => decide (t ≤ now)
          | none => false) := by
    rw [List.filter_filter]
    refine List.filter_congr ?_
    intro r _
    cases hn : r.nextRetryAt <;>
      cases hs : (r.state == JobState.failed) <;> simp [hn, hs]
  have heq : getReadyJobs st now =
      List.insertionSort byCreated
          (st.jobs.filter (fun r => r.state == JobState.pending)) ++
        st.jobs.filter (fun r =>
          r.state == JobState.failed &&
            match r.nextRetryAt with
            | some t => decide (t ≤ now)
            | none => false) := by
    simp only [getReadyJobs]
    rw [hf]
  refine ⟨?_, _, _, heq, List.sorted_insertionSort byCreated _, ?_, rfl⟩
  · intro r
    rw [heq, List.mem_append, List.mem_insertionSort, List.mem_filter, List.mem_filter]
    constructor
    · rintro (⟨hr, hs⟩ | ⟨hr, hs⟩)
      · exact ⟨hr, Or.inl (by simpa using hs)⟩
      · rw [Bool.and_eq_true] at hs
        refine ⟨hr, Or.inr ⟨by simpa using hs.1, ?_⟩⟩
        cases hn : r.nextRetryAt with
        | none => rw [hn] at hs; exact absurd hs.2 (by simp)
        | some t =>
          rw [hn] at hs
          exact ⟨t, rfl, by simpa using hs.2⟩
    · rintro ⟨hr, hs | ⟨hs, t, hn, ht⟩⟩
      · exact Or.inl ⟨hr, by simpa using hs⟩
      · refine Or.inr ⟨hr, ?_⟩
        rw [Bool.and_eq_true]
        exact ⟨by simpa using hs, by rw [hn]; simpa using ht⟩
  · intro r hr
    rw [List.mem_insertionSort, List.mem_filter] at hr
    simpa using hr.2

/-! Claim C7 — the guaranteed-release obligation of `_execute_job`. -/

/-- C7 (counterexample): when the `update_job` persisting the Processing
state raises (worker.py:75 sits BEFORE the try block), the exception
propagates at once and the `finally` clause never runs: the trace contains no
`release_job_lock` call, refuting "ReleaseLock(id) is executed exactly once
... including any unexpected internal fault". -/
theorem executeJob_fault_skips_release :
    (executeJob { initialUpdateFaults := true, result := ExecResult.exited 0,
                  successUpdateFaults := false, firstHandleFaults := false,
                  secondHandleFaults := false }).fst.count ExecOp.opReleaseLock = 0
    ∧ (executeJob { initialUpdateFaults := true, result := ExecResult.exited 0,
                    successUpdateFaults := false, firstHandleFaults := false,
                    secondHandleFaults := false }).snd = true := by
  decide

/-- C7 (amended): on every path that enters the try block — i.e. whenever the
initial Processing persist does not fault — `release_job_lock` runs exactly
once, whatever the process outcome (zero exit, nonzero exit, timeout, launch
failure) and whether or not the Completed persist or either
`_handle_job_failure` call faults; only a fault in the initial persist, which
precedes the try block, skips the release. -/
theorem executeJob_release_once (env : ExecEnv)
    (h : env.initialUpdateFaults = false) :
    (executeJob env).fst.count ExecOp.opReleaseLock = 1 := by
  rcases env with ⟨iuf, res, suf, fhf, shf⟩
  replace h : iuf = false := h
  subst h
  cases res with
  | exited code =>
    cases hc : (code == 0) <;> cases suf <;> cases fhf <;>
      simp [executeJob, hc]
  | timedOut => simp [executeJob]
  | launchError msg => simp [executeJob]

/-- C7 (witness): a timed-out execution whose failure handler itself faults
still releases the lock exactly once. -/
theorem executeJob_release_once_witness :
    (executeJob { initialUpdateFaults := false, result := ExecResult.timedOut,
                  successUpdateFaults := false, firstHandleFaults := true,
                  secondHandleFaults := false }).fst.count ExecOp.opReleaseLock = 1 :=
  executeJob_release_once _ rfl

/-! Claim C8 — configuration changes take effect on the next decision. -/

theorem find?_cfgSet_same (c : Config) (k : String) (v : Nat) :
    (cfgSet c k v).find? (fun p => p.fst == k) = some (k, v) := by
  induction c with
  | nil => simp [cfgSet]
  | cons a c ih =>
    by_cases ha : a.fst = k
    · have h1 : (a.fst == k) = true := by simp [ha]
      have hk : (((k, v) : String × Nat).fst == k) = true := by simp
      have hany : (a :: c).any (fun p => p.fst == k) = true := by
        rw [List.any_cons, h1, Bool.true_or]
      unfold cfgSet
      rw [hany, if_pos rfl, List.map_cons, if_pos h1,
        List.find?_cons_of_pos (p := fun p => p.fst == k)
          (a := ((k, v) : String × Nat)) _ hk]
    · have h1 : (a.fst == k) = false := by simp [ha]
      cases hc : c.any (fun p => p.fst == k) with
      | true =>
        have hset : cfgSet c k v = c.map (fun p => if p.fst == k then (k, v) else p) := by
          simp [cfgSet, hc]
        simp only [cfgSet, List.any_cons, h1, Bool.false_or, hc, if_true,
          List.map_cons, Bool.false_eq_true, if_false]
        rw [List.find?_cons_of_neg (p := fun p => p.fst == k) (a := a) _ (by simp [h1])]
        rw [← hset]
        exact ih
      | false =>
        have hset : cfgSet c k v = c ++ [(k, v)] := by simp [cfgSet, hc]
        simp only [cfgSet, List.any_cons, h1, Bool.false_or, hc, Bool.false_eq_true,
          if_false, List.cons_append]
        rw [List.find?_cons_of_neg (p := fun p => p.fst == k) (a := a) _ (by simp [h1])]
        rw [← hset]
        exact ih

theorem find?_map_cfg (c : Config) (k k' : String) (v : Nat) (h : ¬ k' = k) :
    (c.map (fun p => if p.fst == k then (k, v) else p)).find?
        (fun p => p.fst == k') =
      c.find? (fun p => p.fst == k') := by
  induction c with
  | nil => rfl
  | cons a c ih =>
    by_cases ha : a.fst = k
    · have h1 : (a.fst == k) = true := by simp [ha]
      have h2 : ¬ ((k : String) == k') = true := by
        simp; exact fun hh => h hh.symm
      have h3 : ¬ (a.fst == k') = true := by
        simp [ha]; exact fun hh => h hh.symm
      rw [List.map_cons, if_pos h1,
        List.find?_cons_of_neg (p := fun p => p.fst == k')
          (a := ((k, v) : String × Nat)) _ h2,
        List.find?_cons_of_neg (p := fun p => p.fst == k') (a := a) _ h3]
      exact ih
    · have h1 : ¬ (a.fst == k) = true := by simp [ha]
      rw [List.map_cons, if_neg h1]
      by_cases hak : a.fst = k'
      · have h2 : (a.fst == k') = true := by simp [hak]
        rw [List.find?_cons_of_pos (p := fun p => p.fst == k') (a := a) _ h2,
          List.find?_cons_of_pos (p := fun p => p.fst == k') (a := a) _ h2]
      · have h2 : ¬ (a.fst == k') = true := by simp [hak]
        rw [List.find?_cons_of_neg (p := fun p => p.fst == k') (a := a) _ h2,
          List.find?_cons_of_neg (p := fun p => p.fst == k') (a := a) _ h2]
        exact ih

theorem find?_append_single_ne (c : Config) (k k' : String) (v : Nat)
    (h : ¬ k' = k) :
    (c ++ [(k, v)]).find? (fun p => p.fst == k') =
      c.find? (fun p => p.fst == k') := by
  induction c with
  | nil =>
    have h2 : ¬ ((k : String) == k') = true := by
      simp; exact fun hh => h hh.symm
    rw [List.nil_append,
      List.find?_cons_of_neg (p := fun p => p.fst == k')
        (a := ((k, v) : String × Nat)) _ h2]
  | cons a c ihc =>
    by_cases hak : a.fst = k'
    · have h2 : (a.fst == k') = true := by simp [hak]
      rw [List.cons_append,
        List.find?_cons_of_pos (p := fun p => p.fst == k') (a := a) _ h2,
        List.find?_cons_of_pos (p := fun p => p.fst == k') (a := a) _ h2]
    · have h2 : ¬ (a.fst == k') = true := by simp [hak]
      rw [List.cons_append,
        List.find?_cons_of_neg (p := fun p => p.fst == k') (a := a) _ h2,
        List.find?_cons_of_neg (p := fun p => p.fst == k') (a := a) _ h2]
      exact ihc

theorem find?_cfgSet_other (c : Config) (k k' : String) (v : Nat) (h : ¬ k' = k) :
    (cfgSet c k v).find? (fun p => p.fst == k') = c.find? (fun p => p.fst == k') := by
  unfold cfgSet
  cases hc : c.any (fun p => p.fst == k) with
  | true =>
    rw [if_pos rfl]
    exact find?_map_cfg c k k' v h
  | false =>
    rw [if_neg (by simp)]
    exact find?_append_single_ne c k k' v h

theorem cfgGet_cfgSet_same (c : Config) (k : String) (v d : Nat) :
    cfgGet (cfgSet c k v) k d = v := by
  unfold cfgGet
  rw [find?_cfgSet_same]

theorem cfgGet_cfgSet_other (c : Config) (k k' : String) (v d : Nat)
    (h : ¬ k' = k) :
    cfgGet (cfgSet c k v) k' d = cfgGet c k' d := by
  unfold cfgGet
  rw [find?_cfgSet_other c k k' v h]

/-- C8: after `set_config "max_retries" v` persists, the very next failure
decision reads the document fresh (worker.py:108-111) and is governed by the
new threshold `v`: it retries exactly when `attempts < v` (with the backoff
parameters still read from the untouched keys) and dead-letters under the new
ceiling otherwise — no restart, no caching. -/
theorem setConfig_next_decision_fresh (st : Store) (job : Job) (err : String)
    (now v : Nat) :
    (handleJobFailure (setConfig st "max_retries" v) job err now).snd =
      if job.attempts < v then
        FailureDecision.retry
          (backoffDelay (cfgGet st.config "backoff_base" 2) job.attempts
            (cfgGet st.config "backoff_max_seconds" 600)) err
      else FailureDecision.deadLetter v err := by
  have h1 : cfgGet (cfgSet st.config "max_retries" v) "max_retries" 3 = v :=
    cfgGet_cfgSet_same _ _ _ _
  have h2 : cfgGet (cfgSet st.config "max_retries" v) "backoff_base" 2 =
      cfgGet st.config "backoff_base" 2 :=
    cfgGet_cfgSet_other _ _ _ _ _ (by decide)
  have h3 : cfgGet (cfgSet st.config "max_retries" v) "backoff_max_seconds" 600 =
      cfgGet st.config "backoff_max_seconds" 600 :=
    cfgGet_cfgSet_other _ _ _ _ _ (by decide)
  by_cases hc : job.attempts < v
  · simp only [handleJobFailure, setConfig, h1, h2, h3, hc, if_true]
    rfl
  · simp only [handleJobFailure, setConfig, h1, hc, if_false]

/-! Claim C9 — effect of a storage error on the worker loop. -/

/-- C9 (counterexample): `Worker.run` wraps the WHOLE while loop in one
try/except (worker.py:35-51), so a cycle that raises a storage error ends the
loop: the model stops after that cycle with the crash flag set, and the
ready job of the following cycle is never polled — whereas the spec's loop
(`workerRunSpec`) would process both cycles and keep running. -/
theorem workerRun_dies_on_storage_error :
    workerRun [CycleOutcome.storageError, CycleOutcome.jobFound] = (1, true)
    ∧ workerRunSpec [CycleOutcome.storageError, CycleOutcome.jobFound] =
        (2, false) := by
  decide

/-- C9 (amended): a StorageError arising during a poll cycle terminates the
Worker: the loop stops at the first erroring cycle — having entered exactly
the cycles up to and including it — and the worker exits through its
top-level handler instead of treating the cycle as empty and polling again. -/
theorem workerRun_stops_at_first_error (pre post : List CycleOutcome)
    (h : CycleOutcome.storageError ∉ pre) :
    workerRun (pre ++ CycleOutcome.storageError :: post) =
      (pre.length + 1, true) := by
  induction pre with
  | nil => rfl
  | cons c pre ih =>
    have h' : CycleOutcome.storageError ∉ pre :=
      fun hm => h (List.mem_cons_of_mem _ hm)
    cases c with
    | storageError => exact absurd (List.mem_cons_self _ _) h
    | jobFound =>
      have e : workerRun (CycleOutcome.jobFound ::
            (pre ++ CycleOutcome.storageError :: post)) =
          ((workerRun (pre ++ CycleOutcome.storageError :: post)).fst + 1,
            (workerRun (pre ++ CycleOutcome.storageError :: post)).snd) := rfl
      rw [List.cons_append, e, ih h']
      rfl
    | noJob =>
      have e : workerRun (CycleOutcome.noJob ::
            (pre ++ CycleOutcome.storageError :: post)) =
          ((workerRun (pre ++ CycleOutcome.storageError :: post)).fst + 1,
            (workerRun (pre ++ CycleOutcome.storageError :: post)).snd) := rfl
      rw [List.cons_append, e, ih h']
      rfl

/-- C9 (witness): a quiet cycle, then a storage error, then a ready job: the
worker stops after the second cycle and never reaches the third. -/
theorem workerRun_stops_at_first_error_witness :
    workerRun [CycleOutcome.noJob, CycleOutcome.storageError,
      CycleOutcome.jobFound] = (2, true) :=
  workerRun_stops_at_first_error [CycleOutcome.noJob] [CycleOutcome.jobFound]
    (by decide)

/-! Claim C10 — the frame effect of the upsert. -/

theorem find?_filter_self_append (l : List Row) (idj : String) (newRow : Row)
    (hnew : (newRow.id == idj) = true) :
    ((l.filter (fun r => !(r.id == idj))) ++ [newRow]).find?
        (fun r => r.id == idj) =
      some newRow := by
  induction l with
  | nil =>
    rw [List.filter_nil, List.nil_append,
      List.find?_cons_of_pos (p := fun r => r.id == idj) (a := newRow) _ hnew]
  | cons a l ih =>
    by_cases ha : a.id = idj
    · rw [List.filter_cons_of_neg (p := fun r => !(r.id == idj)) (a := a)
        (by simp [ha])]
      exact ih
    · rw [List.filter_cons_of_pos (p := fun r => !(r.id == idj)) (a := a)
        (by simp [ha]), List.cons_append,
        List.find?_cons_of_neg (p := fun r => r.id == idj) (a := a) _
          (by simp [ha])]
      exact ih

/-- A locked, retry-scheduled failed row about to be upserted over. -/
def c10Row : Row :=
  { id := "j10", command := "exit 1", state := JobState.failed, attempts := 2,
    maxRetries := 3, createdAt := 10, updatedAt := 20, nextRetryAt := some 500,
    errorMessage := some "boom", lockedUntil := 900 }

/-- A store holding only `c10Row`. -/
def c10Store : Store := { jobs := [c10Row], dlq := [], config := defaultConfig }

/-- The replacement job handed to `add_job` for the same id. -/
def c10Job : Job :=
  { id := "j10", command := "echo new", state := JobState.pending, attempts := 0,
    maxRetries := 5, createdAt := 30, updatedAt := 30, nextRetryAt := some 999,
    errorMessage := none }

/-- C10: `add_job`'s INSERT OR REPLACE (storage.py:80-83) names neither
`next_retry_at` nor `locked_until`, so upserting an id already present in the
live table leaves a row whose `next_retry_at` is NULL and whose
`locked_until` is the unlocked sentinel 0 — an existing lock is silently
released (even the job argument's own `next_retry_at` is dropped) — while
rows of every other id are untouched. -/
theorem addJob_resets_lock_and_retry (st : Store) (job : Job) (now : Nat)
    (r : Row) (_hr : findRow st job.id = some r) :
    findRow (addJob st job now) job.id =
      some { id := job.id, command := job.command, state := job.state,
             attempts := job.attempts, maxRetries := job.maxRetries,
             createdAt := job.createdAt, updatedAt := now,
             nextRetryAt := none, errorMessage := job.errorMessage,
             lockedUntil := 0 }
    ∧ ∀ x, x ≠ job.id → findRow (addJob st job now) x = findRow st x := by
  constructor
  · unfold findRow addJob
    exact find?_filter_self_append st.jobs job.id _ (by simp)
  · intro x hx
    unfold findRow addJob
    exact find?_filter_ne_append st.jobs job.id x hx _ rfl

/-- C10 (witness): upserting over the locked failed row `c10Row` yields a row
with `next_retry_at` absent and `locked_until = 0`, releasing the lock. -/
theorem addJob_resets_lock_and_retry_witness :
    findRow (addJob c10Store c10Job 40) c10Job.id =
      some { id := c10Job.id, command := c10Job.command, state := c10Job.state,
             attempts := c10Job.attempts, maxRetries := c10Job.maxRetries,
             createdAt := c10Job.createdAt, updatedAt := 40,
             nextRetryAt := none, errorMessage := c10Job.errorMessage,
             lockedUntil := 0 } :=
  (addJob_resets_lock_and_retry c10Store c10Job 40 c10Row (by decide)).1

end QueueCtl
